import Mathlib

/-!
Verification of the c-compiler repository's test corpus and runtime against its
specification.  The test programs under `src/benchmarks` and `src/testing` and the
safe-allocator runtime under `src/runtime/malloc.c` are embedded shallowly: C `int`
values are integers wrapped to 32-bit two's complement, unsigned values are naturals
below `2^32`, and the runtime's header/canary discipline is an explicit record.
Compiler-internal operations that the repository only exercises through tests
(the optimizer's strength-reduction forms, the lexer's multi-character constant
packing, pointer-arithmetic lowering, struct layout, designated-initializer
lowering) are modelled from the specification text and marked as such.
-/

set_option maxRecDepth 40000

/-! ## 32-bit two's-complement machine model -/

/-- Wrap an unbounded integer to the 32-bit two's-complement range
`[-2^31, 2^31)`, as C `int` arithmetic does on the target. -/
def wrap32 (z : Int) : Int := (z + 2 ^ 31) % 2 ^ 32 - 2 ^ 31

/-- The unsigned 32-bit bit pattern of a (signed) value. -/
def toBits (z : Int) : Nat := (z % 2 ^ 32).toNat

/-- Reinterpret a 32-bit bit pattern as a signed value. -/
def ofBits (n : Nat) : Int := wrap32 n

/-- C `int` addition (wrapping). -/
def add32 (a b : Int) : Int := wrap32 (a + b)

/-- C `int` subtraction (wrapping). -/
def sub32 (a b : Int) : Int := wrap32 (a - b)

/-- C `int` multiplication (wrapping). -/
def mul32 (a b : Int) : Int := wrap32 (a * b)

/-- C `int` division: truncation toward zero, wrapped. -/
def sdiv32 (a b : Int) : Int := wrap32 (Int.tdiv a b)

/-- C `int` remainder: truncated remainder, wrapped. -/
def smod32 (a b : Int) : Int := wrap32 (Int.tmod a b)

/-- C `int` bitwise AND on the two's-complement bit patterns. -/
def and32 (a b : Int) : Int := ofBits (toBits a &&& toBits b)

/-- C `int` bitwise OR on the two's-complement bit patterns. -/
def or32 (a b : Int) : Int := ofBits (toBits a ||| toBits b)

/-- C `int` bitwise XOR on the two's-complement bit patterns. -/
def xor32 (a b : Int) : Int := ofBits (toBits a ^^^ toBits b)

/-- C `int` left shift: shift the bit pattern, discard overflowed bits. -/
def shl32 (a : Int) (k : Nat) : Int := ofBits (toBits a <<< k % 2 ^ 32)

/-- C `int` right shift on the target: arithmetic shift, i.e. floor division
of the signed value by `2^k`. -/
def asr32 (a : Int) (k : Nat) : Int := wrap32 (Int.fdiv (wrap32 a) (2 ^ k))

/-! ## src/benchmarks/array_sum.c -/

namespace ArraySum

/-- The array after the first loop of `main`: `arr[i] = i` for `i < n`. -/
def arrInit (n : Nat) : List Int := (List.range n).map Int.ofNat

/-- `main` of src/benchmarks/array_sum.c: initialise `arr[1000]` with
`arr[i] = i`, sum the elements with `int` addition, return `sum % 256`. -/
def main : Int :=
  let arr := arrInit 1000
  let sum := arr.foldl add32 0
  smod32 sum 256

end ArraySum

/-! ## src/benchmarks/fib.c -/

namespace Fib

/-- `fib` of src/benchmarks/fib.c, with an explicit fuel bound on the call
depth: `fib(n) = n` for `n <= 1`, else `fib(n-1) + fib(n-2)` with `int`
addition; `none` means the fuel was exhausted before the recursion returned. -/
def fib : Nat → Int → Option Int
  | 0, _ => none
  | fuel + 1, n =>
    if n ≤ 1 then some n
    else
      match fib fuel (n - 1), fib fuel (n - 2) with
      | some a, some b => some (add32 a b)
      | _, _ => none

/-- `main` of src/benchmarks/fib.c returns `fib(20)`, at a given fuel. -/
def main (fuel : Nat) : Option Int := fib fuel 20

end Fib

/-! ## Unsigned 32-bit IR operations (claim C2)

The optimizer itself is not part of the repository (only its test inputs are),
so the SSA IR operations that its strength-reduction rule relates are modelled
from the specification. -/

/-- Modelled from the spec: the SSA IR `udiv` instruction on 32-bit unsigned
values (the optimizer and IR sources are absent from the repository; §3 lists
`udiv` among the arithmetic instructions). -/
def udiv32 (a b : Nat) : Nat := a / b

/-- Modelled from the spec: the SSA IR `urem` instruction on 32-bit unsigned
values. -/
def umod32 (a b : Nat) : Nat := a % b

/-- Modelled from the spec: the SSA IR `lshr` (logical shift right) instruction
on 32-bit unsigned values. -/
def lshr32 (a k : Nat) : Nat := a >>> k

/-- Modelled from the spec: the SSA IR `and` instruction on 32-bit unsigned
values. -/
def andU32 (a b : Nat) : Nat := a &&& b

/-! ## src/testing/test_algebraic.c and end-to-end scenario 1 (claim C4) -/

namespace TestAlgebraic

/-- `main` of src/testing/test_algebraic.c: the chain
`x=42; a=x*1; b=a+0; c=b-0; d=c|0; e=d&-1; f=e^0; g=f<<0; h=g>>0; i=h/1;
j=i%1; k=j+42; return k;`. -/
def main : Int :=
  let x : Int := 42
  let a := mul32 x 1
  let b := add32 a 0
  let c := sub32 b 0
  let d := or32 c 0
  let e := and32 d (-1)
  let f := xor32 e 0
  let g := shl32 f 0
  let h := asr32 g 0
  let i := sdiv32 h 1
  let j := smod32 i 1
  let k := add32 j 42
  k

/-- End-to-end scenario 1 of the spec:
`int main(){ int x=42; int a=x*1; int b=a+0; int c=b|0; int d=c&-1; return d; }`. -/
def scenario1 : Int :=
  let x : Int := 42
  let a := mul32 x 1
  let b := add32 a 0
  let c := or32 b 0
  let d := and32 c (-1)
  d

end TestAlgebraic

/-! ## src/testing/test_const_expr_array.c (claim C5) -/

/-- Modelled from the spec: the lexer packs the bytes of a multi-character
constant most-significant-first into the result integer (`'AB'` equals
`('A' << 8) | 'B'`); the lexer source is absent from the repository. -/
def multicharConst (bytes : List Nat) : Nat :=
  bytes.foldl (fun acc b => acc <<< 8 ||| b) 0

/-- Modelled from the spec: `sizeof(int)` is 4 on the target (§9 resolves the
two conflicting test expectations in favour of `sizeof(int) == 4`). -/
def sizeofInt : Nat := 4

namespace ConstExprArray

/-- `main` of src/testing/test_const_expr_array.c.  Arrays are embedded as
lists written by `set` at the stored indices; array extents come from the
constant expressions of the source (`2+3`, `sizeof(int)`, `1<<2`). -/
def main : Int :=
  let mc : Int := Int.ofNat (multicharConst [65, 66])
  let arr := ((((List.replicate (2 + 3) (0 : Int)).set 0 10).set 1 20).set 2
      30).set 3 40 |>.set 4 50
  let sum := add32 (add32 (add32 (add32 (arr.getD 0 0) (arr.getD 1 0))
      (arr.getD 2 0)) (arr.getD 3 0)) (arr.getD 4 0)
  let arr2 := (((List.replicate sizeofInt (0 : Int)).set 0 1).set 1 2).set 2
      3 |>.set 3 4
  let sum2 := add32 (add32 (add32 (arr2.getD 0 0) (arr2.getD 1 0))
      (arr2.getD 2 0)) (arr2.getD 3 0)
  let arr3 := (((List.replicate (1 <<< 2) (0 : Int)).set 0 5).set 1 6).set 2
      7 |>.set 3 8
  let sum3 := add32 (add32 (add32 (arr3.getD 0 0) (arr3.getD 1 0))
      (arr3.getD 2 0)) (arr3.getD 3 0)
  let mcLow := smod32 mc 256
  add32 (sub32 (add32 (sub32 (add32 (sub32 (add32 (sub32 sum 150) sum2) 10)
      sum3) 26) mcLow) 66) 42

end ConstExprArray

/-! ## src/testing/test_ptr_known.c and src/testing/test_ptr_diff_bytes.c
(claim C6) -/

/-- Modelled from the spec: pointer-plus-integer lowers to a `gep` that
multiplies the integer operand by the element size; for `int*` the element
size is `sizeof(int) = 4`.  A null base is lowered identically. -/
def gepInt (p n : Int) : Int := p + n * (sizeofInt : Int)

/-- C cast of a pointer value to `int`: truncate to 32 bits. -/
def castIntOfPtr (p : Int) : Int := wrap32 p

namespace PtrKnown

/-- `main` of src/testing/test_ptr_known.c:
`int *p = (int*)0; int *q = p + 1; return (int)q;`. -/
def main : Int :=
  let p : Int := 0
  let q := gepInt p 1
  castIntOfPtr q

end PtrKnown

namespace PtrDiffBytes

/-- `main` of src/testing/test_ptr_diff_bytes.c, parameterised by the address
of the local array `arr`: `p = arr; q = p + 1; diff = (int)q - (int)p;` then
return 1/2/3/0 according to whether `diff` is 8, 4 or 1. -/
def main (base : Int) : Int :=
  let p := base
  let q := gepInt p 1
  let diff := sub32 (castIntOfPtr q) (castIntOfPtr p)
  if diff = 8 then 1 else if diff = 4 then 2 else if diff = 1 then 3 else 0

end PtrDiffBytes

/-! ## src/testing/test_offsetof.c (claim C7) -/

/-- Round `off` up to the next multiple of the alignment `al`. -/
def alignUp (off al : Nat) : Nat := (off + al - 1) / al * al

/-- Modelled from the spec: natural-alignment struct layout — each member is
placed at its own offset rounded up to its alignment, the next free offset
being the member's offset plus its size (§4.3: field offsets computed with
natural alignment unless `packed`).  A member is a (size, alignment) pair;
the semantic analyzer computing this layout is absent from the repository. -/
def structOffsets : Nat → List (Nat × Nat) → List Nat
  | _, [] => []
  | cur, m :: rest =>
    alignUp cur m.2 :: structOffsets (alignUp cur m.2 + m.1) rest

/-- `__builtin_offsetof` for member index `i` of a struct with the given
member list: the layout-computed offset. -/
def offsetofB (ms : List (Nat × Nat)) (i : Nat) : Nat :=
  (structOffsets 0 ms).getD i 0

/-- `struct Point { int x; int y; int z; }` of src/testing/test_offsetof.c,
as (size, alignment) pairs with `int` of size 4, alignment 4. -/
def pointMembers : List (Nat × Nat) := [(4, 4), (4, 4), (4, 4)]

/-- `struct Nested { char a; int b; char c; int d; }` of
src/testing/test_offsetof.c, with `char` of size 1, alignment 1. -/
def nestedMembers : List (Nat × Nat) := [(1, 1), (4, 4), (1, 1), (4, 4)]

namespace Offsetof

/-- `main` of src/testing/test_offsetof.c: the sum of the four offsets plus
18. -/
def main : Int :=
  let offX := offsetofB pointMembers 0
  let offY := offsetofB pointMembers 1
  let offZ := offsetofB pointMembers 2
  let offD := offsetofB nestedMembers 3
  Int.ofNat (offX + offY + offZ + offD + 18)

end Offsetof

/-! ## src/testing/test_designated_init.c (claim C8) -/

/-- The fields of `struct Rect { int x; int y; int width; int height; }`. -/
inductive RectField
  | x
  | y
  | width
  | height
deriving DecidableEq

/-- A value of `struct Rect`. -/
structure RectV where
  x : Int
  y : Int
  width : Int
  height : Int
deriving DecidableEq

/-- Write one field of a `RectV`. -/
def setF (r : RectV) : RectField → Int → RectV
  | .x, v => { r with x := v }
  | .y, v => { r with y := v }
  | .width, v => { r with width := v }
  | .height, v => { r with height := v }

/-- Read one field of a `RectV`. -/
def getF (r : RectV) : RectField → Int
  | .x => r.x
  | .y => r.y
  | .width => r.width
  | .height => r.height

/-- The all-zero `RectV`. -/
def zeroRect : RectV := ⟨0, 0, 0, 0⟩

/-- Modelled from the spec: lowering of a designated struct initializer — the
object starts zeroed (initializer lists with fewer elements than the aggregate
zero-fill) and the designators are applied in order, later designators
overwriting earlier ones (§4.4); the IR builder computing this is absent from
the repository. -/
def initRect (ds : List (RectField × Int)) : RectV :=
  ds.foldl (fun r p => setF r p.1 p.2) zeroRect

namespace DesignatedInit

/-- `r` of src/testing/test_designated_init.c:
`struct Rect r = {.width = 100, .height = 50, .x = 10, .y = 20};`. -/
def r : RectV := initRect [(.width, 100), (.height, 50), (.x, 10), (.y, 20)]

/-- `r2` of src/testing/test_designated_init.c:
`struct Rect r2 = {.x = 5, .height = 30};`. -/
def r2 : RectV := initRect [(.x, 5), (.height, 30)]

/-- `main` of src/testing/test_designated_init.c: the chain of field checks,
returning the number of the first failing check, `0` when all pass. -/
def main : Int :=
  if r.x ≠ 10 then 1
  else if r.y ≠ 20 then 2
  else if r.width ≠ 100 then 3
  else if r.height ≠ 50 then 4
  else if r2.x ≠ 5 then 5
  else if r2.height ≠ 30 then 6
  else 0

end DesignatedInit

/-! ## src/runtime/malloc.c (claims C9 and C10) -/

/-- `MAGIC` of src/runtime/malloc.c ("SAFEMALC"). -/
def MAGIC : Nat := 0x534146454D414C43

/-- `CANARY` of src/runtime/malloc.c. -/
def CANARY : Nat := 0xABCD1234

/-- `POISON` of src/runtime/malloc.c. -/
def POISON : Nat := 0xDE

/-- `BlockHeader` of src/runtime/malloc.c: `magic` is a `uint64_t`, `size` a
64-bit `size_t`, `checksum` a `uint32_t` (the `padding` field carries no
information). -/
structure BlockHeader where
  magic : Nat
  size : Nat
  checksum : Nat

/-- `calculate_checksum` of src/runtime/malloc.c: XOR of the four 32-bit
casts of `magic` (low and high halves) and `size` (low and high halves; the
`_WIN64` branch is active on the Windows x64 target).  The `checksum` field
itself is not read. -/
def calculate_checksum (h : BlockHeader) : Nat :=
  let c1 := 0 ^^^ (h.magic % 2 ^ 32)
  let c2 := c1 ^^^ ((h.magic >>> 32) % 2 ^ 32)
  let c3 := c2 ^^^ (h.size % 2 ^ 32)
  let c4 := c3 ^^^ ((h.size >>> 32) % 2 ^ 32)
  c4

/-- An allocated block: the header, the two canary words and the payload
bytes. -/
structure Block where
  header : BlockHeader
  preCanary : Nat
  postCanary : Nat
  payload : List Nat

/-- `safe_malloc` of src/runtime/malloc.c.  `allocOk` stands for the success
of the underlying `VirtualAlloc`; on failure the function returns NULL
(`none`).  On success the header is written with `MAGIC`, the requested size
and the checksum of that header, and both canaries are set to `CANARY`
(`VirtualAlloc` zero-fills the payload). -/
def safe_malloc (allocOk : Bool) (size : Nat) : Option Block :=
  if allocOk then
    let h0 : BlockHeader := { magic := MAGIC, size := size, checksum := 0 }
    some { header := { h0 with checksum := calculate_checksum h0 },
           preCanary := CANARY, postCanary := CANARY,
           payload := List.replicate size 0 }
  else none

/-- The three corruption diagnostics `safe_free` can print to stderr before
calling `exit(1)`. -/
inductive Diag
  | invalidMagic
  | headerTampered
  | canaryCorrupted
deriving DecidableEq

/-- The observable effects of one `safe_free` call: whether `exit(1)` was
reached, the diagnostic printed to stderr (if any), whether the payload was
poisoned with `POISON`, and whether the block was released via
`VirtualFree`. -/
structure FreeResult where
  exited : Bool
  diagnostic : Option Diag
  poisoned : Bool
  released : Bool
deriving DecidableEq

/-- `safe_free` of src/runtime/malloc.c: a NULL pointer returns immediately;
otherwise the magic value, the header checksum and the two canaries are
checked in that order, each failure printing a diagnostic and calling
`exit(1)`; when all checks pass the payload is poisoned and the block
released. -/
def safe_free : Option Block → FreeResult
  | none => { exited := false, diagnostic := none, poisoned := false,
              released := false }
  | some b =>
    if b.header.magic ≠ MAGIC then
      { exited := true, diagnostic := some Diag.invalidMagic,
        poisoned := false, released := false }
    else if b.header.checksum ≠ calculate_checksum b.header then
      { exited := true, diagnostic := some Diag.headerTampered,
        poisoned := false, released := false }
    else if ¬(b.preCanary = CANARY ∧ b.postCanary = CANARY) then
      { exited := true, diagnostic := some Diag.canaryCorrupted,
        poisoned := false, released := false }
    else
      { exited := false, diagnostic := none, poisoned := true,
        released := true }

/-- `free` of src/runtime/malloc.c: `void free(void* ptr) { safe_free(ptr); }`. -/
def free (ptr : Option Block) : FreeResult := safe_free ptr

/-- The concrete block `safe_malloc` builds for a 3-byte request, used to
exhibit one successful round trip. -/
def block3 : Block :=
  { header := { magic := MAGIC, size := 3,
                checksum := calculate_checksum
                  { magic := MAGIC, size := 3, checksum := 0 } },
    preCanary := CANARY, postCanary := CANARY,
    payload := List.replicate 3 0 }

/-! ## Helper lemmas on the machine model -/

theorem wrap32_eq_self {z : Int} (h₁ : -(2 ^ 31) ≤ z) (h₂ : z < 2 ^ 31) :
    wrap32 z = z := by
  unfold wrap32
  omega

theorem foldl_add32_eq (l : List Int) :
    ∀ s : Int, 0 ≤ s → (∀ x ∈ l, 0 ≤ x) → s + l.sum < 2 ^ 31 →
      l.foldl add32 s = s + l.sum := by
  induction l with
  | nil => intro s _ _ _; simp
  | cons x xs ih =>
    intro s hs hnn hlt
    have hx : 0 ≤ x := hnn x (by simp)
    have hxs : 0 ≤ xs.sum := List.sum_nonneg (fun y hy => hnn y (by simp [hy]))
    have hsum : s + (x :: xs).sum = s + x + xs.sum := by
      simp [List.sum_cons]; ring
    have hxlt : s + x < 2 ^ 31 := by omega
    have hstep : add32 s x = s + x := wrap32_eq_self (by omega) (by omega)
    have := ih (s + x) (by omega) (fun y hy => hnn y (by simp [hy])) (by omega)
    rw [List.foldl_cons, hstep, this, hsum]

theorem arrInit_sum : (ArraySum.arrInit 1000).sum = 499500 := by
  have h : (List.range 1000).sum = 499500 := by decide
  have hcast : (ArraySum.arrInit 1000).sum = ((List.range 1000).sum : Int) := by
    rw [ArraySum.arrInit]
    exact (Nat.cast_list_sum (List.range 1000)).symm
  rw [hcast, h]
  rfl

theorem arrInit_nonneg : ∀ x ∈ ArraySum.arrInit 1000, (0 : Int) ≤ x := by
  intro x hx
  rw [ArraySum.arrInit] at hx
  rcases List.mem_map.mp hx with ⟨i, _, rfl⟩
  exact Int.ofNat_nonneg i

theorem arraySum_main_eq : ArraySum.main = 44 := by
  have hfold : (ArraySum.arrInit 1000).foldl add32 0 = 499500 := by
    have := foldl_add32_eq (ArraySum.arrInit 1000) 0 le_rfl arrInit_nonneg
      (by rw [arrInit_sum]; norm_num)
    simpa [arrInit_sum] using this
  show smod32 ((ArraySum.arrInit 1000).foldl add32 0) 256 = 44
  rw [hfold]
  decide

theorem toBits_lt (z : Int) : toBits z < 2 ^ 32 := by
  unfold toBits
  omega

theorem ofBits_toBits {z : Int} (h₁ : -(2 ^ 31) ≤ z) (h₂ : z < 2 ^ 31) :
    ofBits (toBits z) = z := by
  unfold ofBits toBits wrap32
  omega

theorem or_two_pow_sub_one {n m : Nat} (h : n < 2 ^ m) :
    n ||| (2 ^ m - 1) = 2 ^ m - 1 := by
  apply Nat.eq_of_testBit_eq
  intro i
  rw [Nat.testBit_or, Nat.testBit_two_pow_sub_one]
  by_cases hi : i < m
  · simp [hi]
  · have hni : n < 2 ^ i :=
      lt_of_lt_of_le h (Nat.pow_le_pow_right (by norm_num) (by omega))
    simp [hi, Nat.testBit_lt_two_pow hni]

theorem fib_eval : ∀ m : Nat, m ≤ 20 → ∀ fuel : Nat, m < fuel →
    Fib.fib fuel (m : Int) = some ((Nat.fib m : Int)) := by
  intro m
  induction m using Nat.strong_induction_on with
  | _ m ih =>
    intro hm fuel hf
    cases fuel with
    | zero => omega
    | succ f =>
      by_cases h1 : m ≤ 1
      · have hle : ((m : Int)) ≤ 1 := by omega
        simp only [Fib.fib]
        rw [if_pos hle]
        interval_cases m
        · rfl
        · rfl
      · have hn1 : ¬(((m : Int)) ≤ 1) := by omega
        simp only [Fib.fib]
        rw [if_neg hn1]
        have e1 : ((m : Int)) - 1 = ((m - 1 : Nat) : Int) := by omega
        have e2 : ((m : Int)) - 2 = ((m - 2 : Nat) : Int) := by omega
        rw [e1, e2, ih (m - 1) (by omega) (by omega) f (by omega),
          ih (m - 2) (by omega) (by omega) f (by omega)]
        have hb : Nat.fib (m - 1) + Nat.fib (m - 2) = Nat.fib m := by
          have h22 := Nat.fib_add_two (n := m - 2)
          have hx2 : m - 2 + 2 = m := by omega
          have hx1 : m - 2 + 1 = m - 1 := by omega
          rw [hx2, hx1] at h22
          omega
        have h20 : Nat.fib 20 = 6765 := by decide
        have hfm : Nat.fib m ≤ 6765 := h20 ▸ Nat.fib_mono hm
        have hadd : add32 ((Nat.fib (m - 1) : Int)) ((Nat.fib (m - 2) : Int))
            = ((Nat.fib m : Int)) := by
          unfold add32
          rw [show ((Nat.fib (m - 1) : Int) + (Nat.fib (m - 2) : Int))
              = ((Nat.fib m : Int)) by omega]
          exact wrap32_eq_self (by omega) (by omega)
        show some (add32 ((Nat.fib (m - 1) : Int)) ((Nat.fib (m - 2) : Int)))
            = some ((Nat.fib m : Int))
        rw [hadd]

theorem getF_setF_same (r : RectV) (f : RectField) (v : Int) :
    getF (setF r f v) f = v := by
  cases f <;> rfl

theorem getF_setF_ne (r : RectV) {g f : RectField} (v : Int) (h : g ≠ f) :
    getF (setF r g v) f = getF r f := by
  cases g <;> cases f <;> simp_all [setF, getF]

theorem getF_foldl_ne :
    ∀ (ds : List (RectField × Int)) (r : RectV) (f : RectField),
      (∀ p ∈ ds, p.1 ≠ f) →
      getF (ds.foldl (fun r p => setF r p.1 p.2) r) f = getF r f := by
  intro ds
  induction ds with
  | nil => intro r f _; rfl
  | cons q qs ih =>
    intro r f h
    rw [List.foldl_cons, ih _ f (fun p hp => h p (by simp [hp])),
      getF_setF_ne _ _ (h q (by simp))]

/-! ## Claim theorems -/

/-- C1 (counterexample): the claim says `main` of src/benchmarks/array_sum.c
returns 116, but summing `arr[i] = i` for `i < 1000` gives 499500 and
`499500 % 256 = 44`, so the program does not return 116. -/
theorem claim_c1_counterexample : ArraySum.main ≠ 116 := by
  rw [arraySum_main_eq]
  decide

/-- C1 (amended): after initialising `arr[1000]` with `arr[i] = i` and summing
all elements, `main` of src/benchmarks/array_sum.c returns `sum % 256 = 44`. -/
theorem claim_c1_array_sum : ArraySum.main = 44 := arraySum_main_eq

/-- C2: for every representable unsigned `x` and every representable
power-of-two divisor `d = 2^k`, `x / d` equals `x` logically shifted right by
`k`, and `x % d` equals `x & (d - 1)`. -/
theorem claim_c2_strength_reduction : ∀ x k : Nat, x < 2 ^ 32 → 2 ^ k < 2 ^ 32 →
    udiv32 x (2 ^ k) = lshr32 x k ∧ umod32 x (2 ^ k) = andU32 x (2 ^ k - 1) := by
  intro x k _ _
  constructor
  · unfold udiv32 lshr32
    exact (Nat.shiftRight_eq_div_pow x k).symm
  · unfold umod32 andU32
    exact (Nat.and_pow_two_sub_one_eq_mod x k).symm

/-- C2 witness: the strength-reduction identities at `x = 17`, `k = 2`. -/
theorem claim_c2_witness :
    17 < 2 ^ 32 ∧ 2 ^ 2 < 2 ^ 32 ∧
    (udiv32 17 (2 ^ 2) = lshr32 17 2 ∧ umod32 17 (2 ^ 2) = andU32 17 (2 ^ 2 - 1)) :=
  ⟨by norm_num, by norm_num,
    claim_c2_strength_reduction 17 2 (by norm_num) (by norm_num)⟩

/-- C3: the recursive Fibonacci program of src/benchmarks/fib.c terminates on
input 20 (any call-depth fuel above 20 suffices) and `main` returns
`fib(20) = 6765`. -/
theorem claim_c3_fib : ∀ fuel : Nat, 20 < fuel → Fib.main fuel = some 6765 := by
  intro fuel h
  have hev := fib_eval 20 le_rfl fuel h
  have h20 : Nat.fib 20 = 6765 := by decide
  rw [h20] at hev
  unfold Fib.main
  simpa using hev

/-- C3 witness: at fuel 21 the program terminates and returns 6765. -/
theorem claim_c3_witness : 20 < 21 ∧ Fib.main 21 = some 6765 :=
  ⟨by norm_num, claim_c3_fib 21 (by norm_num)⟩

/-- C4: each algebraic rewrite rule is value-preserving for every
two's-complement 32-bit integer `x`, and the chained programs of
src/testing/test_algebraic.c and end-to-end scenario 1 both return 42. -/
theorem claim_c4_algebraic : ∀ x : Int, -(2 ^ 31) ≤ x → x < 2 ^ 31 →
    (add32 x 0 = x ∧ sub32 x 0 = x ∧ mul32 x 1 = x ∧ mul32 x 0 = 0 ∧
     sdiv32 x 1 = x ∧ smod32 x 1 = 0 ∧ or32 x 0 = x ∧ and32 x (-1) = x ∧
     xor32 x 0 = x ∧ shl32 x 0 = x ∧ asr32 x 0 = x ∧ sub32 x x = 0 ∧
     xor32 x x = 0 ∧ and32 x 0 = 0 ∧ or32 x (-1) = -1) ∧
    TestAlgebraic.main = 42 ∧ TestAlgebraic.scenario1 = 42 := by
  intro x h₁ h₂
  refine ⟨⟨?_, ?_, ?_, ?_, ?_, ?_, ?_, ?_, ?_, ?_, ?_, ?_, ?_, ?_, ?_⟩,
    by decide, by decide⟩
  · unfold add32
    rw [add_zero]
    exact wrap32_eq_self h₁ h₂
  · unfold sub32
    rw [sub_zero]
    exact wrap32_eq_self h₁ h₂
  · unfold mul32
    rw [mul_one]
    exact wrap32_eq_self h₁ h₂
  · unfold mul32
    rw [mul_zero]
    decide
  · unfold sdiv32
    rw [Int.tdiv_one]
    exact wrap32_eq_self h₁ h₂
  · unfold smod32
    rw [Int.tmod_one]
    decide
  · unfold or32
    rw [show toBits 0 = 0 from by decide, Nat.or_zero]
    exact ofBits_toBits h₁ h₂
  · unfold and32
    rw [show toBits (-1) = 2 ^ 32 - 1 from by decide,
      Nat.and_pow_two_sub_one_eq_mod, Nat.mod_eq_of_lt (toBits_lt x)]
    exact ofBits_toBits h₁ h₂
  · unfold xor32
    rw [show toBits 0 = 0 from by decide, Nat.xor_zero]
    exact ofBits_toBits h₁ h₂
  · unfold shl32
    rw [Nat.shiftLeft_zero, Nat.mod_eq_of_lt (toBits_lt x)]
    exact ofBits_toBits h₁ h₂
  · unfold asr32
    rw [pow_zero, Int.fdiv_one, wrap32_eq_self h₁ h₂, wrap32_eq_self h₁ h₂]
  · unfold sub32
    rw [sub_self]
    decide
  · unfold xor32
    rw [Nat.xor_self]
    decide
  · unfold and32
    rw [show toBits 0 = 0 from by decide, Nat.and_zero]
    decide
  · unfold or32
    rw [show toBits (-1) = 2 ^ 32 - 1 from by decide,
      or_two_pow_sub_one (toBits_lt x)]
    decide

/-- C4 witness: the rules instantiated at `x = 5`. -/
theorem claim_c4_witness :
    -(2 ^ 31) ≤ (5 : Int) ∧ (5 : Int) < 2 ^ 31 ∧ add32 5 0 = 5 :=
  ⟨by norm_num, by norm_num,
    ((claim_c4_algebraic 5 (by norm_num) (by norm_num)).1).1⟩

/-- C5: the multi-character constant `'AB'` packs MSB-first to
`('A' << 8) | 'B' = 16706`, its low byte is 66, and `main` of
src/testing/test_const_expr_array.c returns 42. -/
theorem claim_c5_multichar :
    multicharConst [65, 66] = (65 <<< 8) ||| 66 ∧
    multicharConst [65, 66] = 16706 ∧
    smod32 (Int.ofNat (multicharConst [65, 66])) 256 = 66 ∧
    ConstExprArray.main = 42 := by
  refine ⟨by decide, by decide, by decide, by decide⟩

/-- C6: pointer arithmetic on `int*` scales by `sizeof(int) = 4`, including
with a null base: `main` of src/testing/test_ptr_known.c returns 4, and for
every address of the local array, `main` of src/testing/test_ptr_diff_bytes.c
computes byte difference 4 and returns 2. -/
theorem claim_c6_ptr_scaling :
    PtrKnown.main = 4 ∧ ∀ base : Int, PtrDiffBytes.main base = 2 := by
  constructor
  · decide
  · intro base
    have hdiff : sub32 (castIntOfPtr (gepInt base 1)) (castIntOfPtr base) = 4 := by
      unfold sub32 castIntOfPtr gepInt wrap32 sizeofInt
      push_cast
      omega
    simp only [PtrDiffBytes.main, hdiff]
    norm_num

/-- C7: `__builtin_offsetof` equals the natural-alignment layout-computed
offset: `struct Point` has offsets 0, 4, 8 and `struct Nested` has offsets
0, 4, 8, 12 (three padding bytes before each `int` member after a `char`),
so `main` of src/testing/test_offsetof.c returns 0+4+8+12+18 = 42. -/
theorem claim_c7_offsetof :
    structOffsets 0 pointMembers = [0, 4, 8] ∧
    structOffsets 0 nestedMembers = [0, 4, 8, 12] ∧
    offsetofB pointMembers 0 = 0 ∧ offsetofB pointMembers 1 = 4 ∧
    offsetofB pointMembers 2 = 8 ∧ offsetofB nestedMembers 3 = 12 ∧
    Offsetof.main = 42 := by
  decide

/-- C8: a designated struct initializer writes each designated field
regardless of designator order (any field designated once, wherever it
stands in the list, reads back as written) and leaves every omitted field
zero; in src/testing/test_designated_init.c, `r` carries all four designated
values, `r2` leaves `y` and `width` zero, and `main` returns 0. -/
theorem claim_c8_designated_init :
    (∀ (l1 l2 : List (RectField × Int)) (f : RectField) (v : Int),
      (∀ p ∈ l2, p.1 ≠ f) → getF (initRect (l1 ++ (f, v) :: l2)) f = v) ∧
    (∀ (ds : List (RectField × Int)) (f : RectField),
      (∀ p ∈ ds, p.1 ≠ f) → getF (initRect ds) f = 0) ∧
    DesignatedInit.r.x = 10 ∧ DesignatedInit.r.y = 20 ∧
    DesignatedInit.r.width = 100 ∧ DesignatedInit.r.height = 50 ∧
    DesignatedInit.r2.x = 5 ∧ DesignatedInit.r2.height = 30 ∧
    DesignatedInit.r2.y = 0 ∧ DesignatedInit.r2.width = 0 ∧
    DesignatedInit.main = 0 := by
  refine ⟨?_, ?_, by decide, by decide, by decide, by decide, by decide,
    by decide, by decide, by decide, by decide⟩
  · intro l1 l2 f v h
    unfold initRect
    rw [List.foldl_append, List.foldl_cons, getF_foldl_ne l2 _ f h]
    exact getF_setF_same _ f v
  · intro ds f h
    unfold initRect
    rw [getF_foldl_ne ds zeroRect f h]
    cases f <;> rfl

/-- C8 witness: the order-independence part at a concrete out-of-order
designator list. -/
theorem claim_c8_witness :
    (∀ p ∈ [(RectField.x, (10 : Int))], p.1 ≠ RectField.height) ∧
    getF (initRect ([(RectField.width, 100)] ++
      (RectField.height, 50) :: [(RectField.x, 10)])) RectField.height = 50 :=
  ⟨by decide, claim_c8_designated_init.1 [(RectField.width, 100)]
    [(RectField.x, 10)] RectField.height 50 (by decide)⟩

/-- C9: for every size for which the underlying allocation succeeds,
`safe_free` on the pointer returned by `safe_malloc`, with the block
untouched in between, passes all three corruption checks, does not call
`exit(1)`, poisons and releases the block; the stored checksum equals
`calculate_checksum` of the header `safe_malloc` wrote. -/
theorem claim_c9_roundtrip : ∀ (size : Nat) (b : Block),
    safe_malloc true size = some b →
    safe_free (some b) =
      { exited := false, diagnostic := none, poisoned := true, released := true } ∧
    b.header.checksum = calculate_checksum b.header := by
  intro size b h
  simp only [safe_malloc, if_true] at h
  rw [Option.some_inj] at h
  subst h
  constructor
  · simp only [safe_free]
    rw [if_neg (by simp), if_neg (by simp [calculate_checksum]),
      if_neg (by simp)]
  · rfl

/-- C9 witness: the round trip at size 3. -/
theorem claim_c9_witness :
    safe_malloc true 3 = some block3 ∧
    (safe_free (some block3) =
      { exited := false, diagnostic := none, poisoned := true, released := true } ∧
     block3.header.checksum = calculate_checksum block3.header) :=
  ⟨rfl, claim_c9_roundtrip 3 block3 rfl⟩

/-- C10: `safe_free` applied to NULL (and hence `free(NULL)`) returns
immediately: no exit, no diagnostic, no poisoning, no release. -/
theorem claim_c10_free_null :
    safe_free none =
      { exited := false, diagnostic := none, poisoned := false, released := false } ∧
    free none = safe_free none :=
  ⟨rfl, rfl⟩
